import Mathlib

/-!
Verification of the proof-composition-and-publication pipeline
(`apps/src/bin/publisher.rs`): a local proving stage, assumption
chaining into a remote proving stage, seal encoding, statement
decoding, call building, and transaction sending.

Bytes are modelled as `Nat` (with `< 256` side conditions where a
claim needs them); machine integers are `Nat` with explicit bounds;
fallible operations return `Except PubError`.
-/

/-- The error taxonomy of the pipeline (spec section 7). -/
inductive PubError where
  | EnvironmentBuildError
  | ProvingError
  | AssumptionRejected
  | JournalDecodeError
  | MalformedJournal
  | UnsupportedProofVariant
  | SubmissionError
deriving DecidableEq

/-- Little-endian byte string of a fixed width `k` for the value `v`. -/
def leBytes : Nat → Nat → List Nat
  | 0, _ => []
  | k + 1, v => v % 256 :: leBytes k (v / 256)

/-- Value of a little-endian byte string. -/
def leToNat : List Nat → Nat
  | [] => 0
  | b :: bs => b + 256 * leToNat bs

/-- Big-endian byte string of a fixed width `k` for the value `v`
(the ABI word layout). -/
def beBytes (k v : Nat) : List Nat :=
  (leBytes k v).reverse

/-- Value of a big-endian byte string. -/
def beToNat (l : List Nat) : Nat :=
  leToNat l.reverse

theorem leBytes_length (k v : Nat) : (leBytes k v).length = k := by
  induction k generalizing v with
  | zero => rfl
  | succ k ih => simp [leBytes, ih]

theorem beBytes_length (k v : Nat) : (beBytes k v).length = k := by
  simp [beBytes, leBytes_length]

theorem leToNat_leBytes (k v : Nat) : leToNat (leBytes k v) = v % 256 ^ k := by
  induction k generalizing v with
  | zero => simp [leBytes, leToNat, Nat.mod_one]
  | succ k ih =>
      simp only [leBytes, leToNat, ih]
      rw [pow_succ, mul_comm (256 ^ k) 256, Nat.mod_mul]

theorem leToNat_leBytes_of_lt {k v : Nat} (h : v < 256 ^ k) :
    leToNat (leBytes k v) = v := by
  rw [leToNat_leBytes, Nat.mod_eq_of_lt h]

theorem beToNat_beBytes (k v : Nat) : beToNat (beBytes k v) = v % 256 ^ k := by
  simp [beToNat, beBytes, leToNat_leBytes]

theorem beToNat_beBytes_of_lt {k v : Nat} (h : v < 256 ^ k) :
    beToNat (beBytes k v) = v := by
  rw [beToNat_beBytes, Nat.mod_eq_of_lt h]

theorem leToNat_lt {l : List Nat} (h : ∀ b ∈ l, b < 256) :
    leToNat l < 256 ^ l.length := by
  induction l with
  | nil => simp [leToNat]
  | cons b bs ih =>
      have hb : b < 256 := h b (List.mem_cons_self _ _)
      have hbs : leToNat bs < 256 ^ bs.length :=
        ih fun x hx => h x (List.mem_cons_of_mem _ hx)
      simp only [leToNat, List.length_cons, pow_succ]
      calc b + 256 * leToNat bs < 256 + 256 * leToNat bs := by omega
        _ = 256 * (leToNat bs + 1) := by ring
        _ ≤ 256 * 256 ^ bs.length := by
              exact Nat.mul_le_mul_left 256 (by omega)
        _ = 256 ^ bs.length * 256 := by ring

theorem leBytes_leToNat {l : List Nat} (h : ∀ b ∈ l, b < 256) :
    leBytes l.length (leToNat l) = l := by
  induction l with
  | nil => rfl
  | cons b bs ih =>
      have hb : b < 256 := h b (List.mem_cons_self _ _)
      have hbs := ih fun x hx => h x (List.mem_cons_of_mem _ hx)
      simp only [List.length_cons, leBytes, leToNat]
      rw [Nat.add_mul_mod_self_left, Nat.mod_eq_of_lt hb,
        Nat.add_mul_div_left _ _ (by norm_num : 0 < 256),
        Nat.div_eq_of_lt hb, Nat.zero_add, hbs]

theorem beBytes_beToNat {l : List Nat} (h : ∀ b ∈ l, b < 256)
    (hk : l.length = 32) : beBytes 32 (beToNat l) = l := by
  have hrev : ∀ b ∈ l.reverse, b < 256 := fun b hb => h b (List.mem_reverse.mp hb)
  have hlen : l.reverse.length = 32 := by simp [hk]
  have := leBytes_leToNat hrev
  rw [hlen] at this
  simp only [beBytes, beToNat, this, List.reverse_reverse]

theorem pow256_32 : (256 : Nat) ^ 32 = 2 ^ 256 := by norm_num

theorem pow256_8 : (256 : Nat) ^ 8 = 2 ^ 64 := by norm_num

theorem leBytes_mem_lt (k v : Nat) : ∀ b ∈ leBytes k v, b < 256 := by
  induction k generalizing v with
  | zero => simp [leBytes]
  | succ k ih =>
      intro b hb
      simp only [leBytes, List.mem_cons] at hb
      rcases hb with h | h
      · omega
      · exact ih _ b h

/-- ABI encoding of a single fixed-width unsigned integer as one
32-byte big-endian word (`abi_encode` on the forwarded `u64`, and the
word layout used for `uint256`). -/
def abiEncodeWord (v : Nat) : List Nat :=
  beBytes 32 v

/-- Modelled from the spec: the strict Statement Decoder
(`U256::abi_decode(&journal, true)`; the alloy decoder itself is not
under `src/`). A journal is accepted exactly when it is one full
32-byte ABI word; anything else is a hard `MalformedJournal` failure,
not a best-effort parse. -/
def abiDecodeU256 (j : List Nat) : Except PubError Nat :=
  if j.length = 32 then .ok (beToNat j) else .error .MalformedJournal

/-- Modelled from the spec: the journal serialization of a
`(u64, u64, u64)` tuple (the risc0 serde codec is not under `src/`):
each 64-bit word is laid out as 8 little-endian bytes, in order. -/
def risc0Encode3 (n e x : Nat) : List Nat :=
  leBytes 8 n ++ leBytes 8 e ++ leBytes 8 x

/-- Modelled from the spec: `journal.decode::<(u64, u64, u64)>()`
(the risc0 serde codec is not under `src/`): reads three 64-bit
little-endian words, failing on any other shape. -/
def risc0Decode3 (j : List Nat) : Except PubError (Nat × Nat × Nat) :=
  if j.length = 24 then
    .ok (leToNat (j.take 8), leToNat ((j.drop 8).take 8), leToNat (j.drop 16))
  else .error .JournalDecodeError

/-- The proof object of a receipt: a closed sum of proof variants.
`composite` is the local (STARK-like) variant and carries the claim
(journal) it attests; `groth16` is the succinct variant carrying the
serialized proof bytes. -/
inductive InnerReceipt where
  | composite (claim : List Nat)
  | succinct (sealBytes : List Nat)
  | groth16 (sealBytes : List Nat)
  | fake
deriving DecidableEq

/-- A Proof Artifact: proof object plus public journal bytes. -/
structure Receipt where
  inner : InnerReceipt
  journal : List Nat
deriving DecidableEq

/-- Accessor `inner.groth16()` followed by `.seal`: the serialized
proof bytes when the proof object is the succinct/Groth16 variant,
`UnsupportedProofVariant` otherwise. -/
def InnerReceipt.groth16Seal : InnerReceipt → Except PubError (List Nat)
  | .groth16 s => .ok s
  | _ => .error .UnsupportedProofVariant

/-- Modelled from the spec: the Local Proving Stage together with the
local guest program (`POWER_MODULUS_ELF`; the `methods` guest crate is
not under `src/`). Per the spec's round-trip property, the journal of
the produced Proof Artifact decodes back to exactly the input tuple,
so the journal is the serialization of `(n, e, x)`; the composite
proof attests that journal. -/
def localProveSpec (n e x : Nat) : Receipt :=
  ⟨.composite (risc0Encode3 n e x), risc0Encode3 n e x⟩

/-- The public input forwarded to the remote stage: the third
component of the decoded local journal, ABI-encoded
(`local_res.2.abi_encode()`). -/
def remoteInputOf (t : Nat × Nat × Nat) : List Nat :=
  abiEncodeWord t.2.2

/-- The derived value `v = x^e mod n` the spec attributes to the local
private program. -/
def powMod (x e n : Nat) : Nat :=
  x ^ e % n

/-- Assumption Chaining seen at the artifact level: decode the local
journal and ABI-encode the forwarded component as the second stage's
public input bytes. -/
def forwardedInput (r : Receipt) : Except PubError (List Nat) :=
  match risc0Decode3 r.journal with
  | .error er => .error er
  | .ok t => .ok (remoteInputOf t)

/-- The Execution Environment built for the remote stage: the chained
assumption plus the raw input bytes written into it. -/
structure RemoteEnv where
  assumption : Option Receipt
  input : List Nat
deriving DecidableEq

/-- The environment built by Assumption Chaining from a local Proof
Artifact: registers the artifact as the assumption and writes the
ABI-encoded forwarded value as the input. -/
def chainEnv (r : Receipt) : Except PubError RemoteEnv :=
  match risc0Decode3 r.journal with
  | .error er => .error er
  | .ok t => .ok ⟨some r, remoteInputOf t⟩

/-- A proof object internally attests its receipt's journal when its
claim matches the journal bytes; a mismatch is a forged artifact. -/
def attestsJournal (r : Receipt) : Prop :=
  match r.inner with
  | .composite c => c = r.journal
  | _ => False

instance (r : Receipt) : Decidable (attestsJournal r) := by
  unfold attestsJournal
  cases r.inner <;> simp <;> infer_instance

/-- Modelled from the spec: the Remote Proving Stage (the proving
service and the remote guest `IS_EVEN_ELF` are not under `src/`).
`expected` is the journal of the local Proof Artifact this run chained
on. The service validates the chained assumption — it must be present,
its proof must attest its journal, and it must be the expected local
artifact — and fails with `AssumptionRejected` otherwise; on success
it produces a succinct (Groth16) Proof Artifact whose journal is the
single ABI-encoded word that was forwarded as input. -/
def remoteProveSpec (expected : List Nat) (env : RemoteEnv) : Except PubError Receipt :=
  match env.assumption with
  | none => .error .AssumptionRejected
  | some a =>
      if attestsJournal a ∧ a.journal = expected then
        .ok ⟨.groth16 env.input, env.input⟩
      else .error .AssumptionRejected

/-- Modelled from the spec: the fixed format selector prefix of the
Encoded Seal, one value per proof-system version (the constant lives
in `risc0_ethereum_contracts`, not under `src/`; the concrete bytes
stand in for that pinned value). -/
def groth16Selector : List Nat :=
  [0x31, 0x0f, 0xe5, 0x98]

/-- Modelled from the spec: the Seal Encoder body
(`groth16::encode`, not under `src/`): Encoded Seal = fixed selector
prefix followed by the serialized proof bytes, no length prefix, no
padding. -/
def groth16Encode (sealBytes : List Nat) : List Nat :=
  groth16Selector ++ sealBytes

/-- The Seal Encoder applied to a proof object: extract the succinct
variant's bytes, then prefix the selector. -/
def encodeSeal (inner : InnerReceipt) : Except PubError (List Nat) :=
  match inner.groth16Seal with
  | .error er => .error er
  | .ok s => .ok (groth16Encode s)

/-- Modelled from the spec: the 4-byte function selector of
`set(uint256 x, bytes seal)` on the `IEvenNumber` interface (the hash
deriving it is not under `src/`; the concrete bytes stand in for its
fixed value). -/
def setSelector : List Nat :=
  [0x5f, 0x35, 0x2b, 0x47]

/-- Number of zero bytes padding a `bytes` tail out to a whole 32-byte
ABI word. -/
def padLen (n : Nat) : Nat :=
  (32 - n % 32) % 32

/-- The Call Builder: ABI-encodes the call
`set(uint256 statement, bytes seal)` — function selector, then the
statement word, then the offset word of the dynamic `bytes` argument,
then its length word, the seal bytes and zero padding to a word
boundary. -/
def buildSetCall (stmt : Nat) (s : List Nat) : List Nat :=
  setSelector ++ abiEncodeWord stmt ++ abiEncodeWord 64 ++
    abiEncodeWord s.length ++ s ++ List.replicate (padLen s.length) 0

/-- An independent strict ABI decoder for the `set(uint256, bytes)`
call payload: checks the selector, reads the statement word, requires
the canonical offset, the exact padded length, and zero padding, and
returns the statement and the seal bytes. -/
def decodeSetCall (cd : List Nat) : Option (Nat × List Nat) :=
  if cd.take 4 = setSelector then
    let args := cd.drop 4
    if 96 ≤ args.length then
      let stmt := beToNat (args.take 32)
      let off := beToNat ((args.drop 32).take 32)
      let len := beToNat ((args.drop 64).take 32)
      if off = 64 ∧ args.length = 96 + len + padLen len ∧
          ∀ b ∈ (args.drop 96).drop len, b = 0 then
        some (stmt, (args.drop 96).take len)
      else none
    else none
  else none

/-- A transaction receipt returned by the chain (opaque to the core
beyond success/failure). -/
structure TxReceipt where
  txHash : Nat
deriving DecidableEq

/-- The transaction request the sender builds: chain id, destination
contract, and the calldata. -/
structure TxRequest where
  chainId : Nat
  dest : Nat
  data : List Nat
deriving DecidableEq

/-- The `TxSender` wrapper: chain id and destination contract of the
`SignerMiddleware` client. -/
structure TxSender where
  chainId : Nat
  contract : Nat

/-- `TxSender::send`: builds a `TransactionRequest` with the sender's
chain id, contract address and the calldata, and submits it through
the client (`send_transaction(...).await?.await?`), returning the
client's optional receipt or propagating its failure. The client is
the external collaborator, passed as a function. -/
def TxSender.send (s : TxSender)
    (client : TxRequest → Except PubError (Option TxReceipt))
    (calldata : List Nat) : Except PubError (Option TxReceipt) :=
  client ⟨s.chainId, s.contract, calldata⟩

/-- The pipeline body of `main` after argument parsing, parameterized
by its three collaborators (local prover, remote prover, transaction
sender). It returns the run's outcome together with the list of
calldatas actually handed to the sender, so that send attempts are
observable. Each stage failure aborts the run immediately. -/
def runPipeline
    (localProve : Nat × Nat × Nat → Except PubError Receipt)
    (remoteProve : RemoteEnv → Except PubError Receipt)
    (sender : List Nat → Except PubError (Option TxReceipt))
    (n e x : Nat) :
    Except PubError Unit × List (List Nat) :=
  match localProve (n, e, x) with
  | .error er => (.error er, [])
  | .ok localReceipt =>
    match risc0Decode3 localReceipt.journal with
    | .error er => (.error er, [])
    | .ok localRes =>
      match remoteProve ⟨some localReceipt, remoteInputOf localRes⟩ with
      | .error er => (.error er, [])
      | .ok remoteReceipt =>
        match remoteReceipt.inner.groth16Seal with
        | .error er => (.error er, [])
        | .ok s =>
          match abiDecodeU256 remoteReceipt.journal with
          | .error er => (.error er, [])
          | .ok stmt =>
            match sender (buildSetCall stmt (groth16Encode s)) with
            | .error er => (.error er, [buildSetCall stmt (groth16Encode s)])
            | .ok _ => (.ok (), [buildSetCall stmt (groth16Encode s)])

instance {ε α : Type} [DecidableEq ε] [DecidableEq α] : DecidableEq (Except ε α) :=
  fun x y =>
    match x, y with
    | .ok a, .ok b =>
        if h : a = b then .isTrue (by rw [h])
        else .isFalse (fun hc => h (Except.ok.inj hc))
    | .error a, .error b =>
        if h : a = b then .isTrue (by rw [h])
        else .isFalse (fun hc => h (Except.error.inj hc))
    | .ok _, .error _ => .isFalse (fun hc => Except.noConfusion hc)
    | .error _, .ok _ => .isFalse (fun hc => Except.noConfusion hc)

theorem risc0_roundtrip_aux {n e x : Nat}
    (hn : n < 256 ^ 8) (he : e < 256 ^ 8) (hx : x < 256 ^ 8) :
    risc0Decode3 (risc0Encode3 n e x) = .ok (n, e, x) := by
  have hA : (leBytes 8 n).length = 8 := leBytes_length 8 n
  have hB : (leBytes 8 e).length = 8 := leBytes_length 8 e
  have hC : (leBytes 8 x).length = 8 := leBytes_length 8 x
  unfold risc0Decode3 risc0Encode3
  rw [List.append_assoc]
  have hlen : (leBytes 8 n ++ (leBytes 8 e ++ leBytes 8 x)).length = 24 := by
    simp [hA, hB, hC]
  have h16 : List.drop 16 (leBytes 8 n ++ (leBytes 8 e ++ leBytes 8 x)) = leBytes 8 x := by
    show List.drop (8 + 8) (leBytes 8 n ++ (leBytes 8 e ++ leBytes 8 x)) = leBytes 8 x
    rw [← List.drop_drop, List.drop_left' hA, List.drop_left' hB]
  rw [hlen, if_pos rfl, h16, List.take_left' hA, List.drop_left' hA, List.take_left' hB,
    leToNat_leBytes_of_lt hn, leToNat_leBytes_of_lt he, leToNat_leBytes_of_lt hx]

theorem risc0Encode3_inj {n e x n' e' x' : Nat}
    (hn : n < 256 ^ 8) (he : e < 256 ^ 8) (hx : x < 256 ^ 8)
    (hn' : n' < 256 ^ 8) (he' : e' < 256 ^ 8) (hx' : x' < 256 ^ 8)
    (h : risc0Encode3 n e x = risc0Encode3 n' e' x') :
    (n, e, x) = (n', e', x') := by
  have h1 := risc0_roundtrip_aux hn he hx
  have h2 := risc0_roundtrip_aux hn' he' hx'
  rw [h] at h1
  rw [h1] at h2
  exact Except.ok.inj h2

/-- C2: for all valid `(u64, u64, u64)` Program Inputs, running the
Local Proving Stage and decoding the resulting Proof Artifact's
journal as a `(u64, u64, u64)` tuple reproduces exactly the original
input tuple. -/
theorem local_journal_roundtrip (n e x : Nat)
    (hn : n < 2 ^ 64) (he : e < 2 ^ 64) (hx : x < 2 ^ 64) :
    risc0Decode3 (localProveSpec n e x).journal = .ok (n, e, x) :=
  risc0_roundtrip_aux (by rw [pow256_8]; exact hn)
    (by rw [pow256_8]; exact he) (by rw [pow256_8]; exact hx)

theorem local_journal_roundtrip_witness :
    (3 < 2 ^ 64 ∧ 5 < 2 ^ 64 ∧ 2 < 2 ^ 64) ∧
      risc0Decode3 (localProveSpec 3 5 2).journal = .ok (3, 5, 2) :=
  ⟨⟨by decide, by decide, by decide⟩,
    local_journal_roundtrip 3 5 2 (by decide) (by decide) (by decide)⟩

/-- C10: for every Local Proof Artifact whose journal decodes as a
`(u64, u64, u64)` tuple, the public input forwarded to the Remote
Proving Stage is exactly the ABI encoding of the third component of
that tuple, independent of the other two components. -/
theorem remote_input_is_third_component (r : Receipt) (t : Nat × Nat × Nat)
    (_h : risc0Decode3 r.journal = .ok t) :
    remoteInputOf t = abiEncodeWord t.2.2 ∧
      ∀ t' : Nat × Nat × Nat, t'.2.2 = t.2.2 → remoteInputOf t' = remoteInputOf t := by
  refine ⟨rfl, ?_⟩
  intro t' h'
  simp [remoteInputOf, h']

theorem remote_input_is_third_component_witness :
    risc0Decode3 (localProveSpec 3 5 2).journal = .ok (3, 5, 2) ∧
      remoteInputOf (3, 5, 2) = abiEncodeWord 2 ∧
      remoteInputOf (7, 9, 2) = remoteInputOf (3, 5, 2) :=
  ⟨by decide,
    (remote_input_is_third_component (localProveSpec 3 5 2) (3, 5, 2) (by decide)).1,
    (remote_input_is_third_component (localProveSpec 3 5 2) (3, 5, 2) (by decide)).2
      (7, 9, 2) rfl⟩

/-- C5: the Seal Encoder fails with `UnsupportedProofVariant` on every
proof object that is not of the succinct/Groth16 variant, returning no
bytes at all (so it never silently truncates or misencodes). -/
theorem seal_encoder_rejects_non_groth16 (inner : InnerReceipt)
    (h : ∀ s, inner ≠ InnerReceipt.groth16 s) :
    encodeSeal inner = .error .UnsupportedProofVariant := by
  cases inner with
  | groth16 s => exact absurd rfl (h s)
  | composite c => rfl
  | succinct s => rfl
  | fake => rfl

theorem seal_encoder_rejects_non_groth16_witness :
    (∀ s, InnerReceipt.succinct [1, 2, 3] ≠ InnerReceipt.groth16 s) ∧
      encodeSeal (InnerReceipt.succinct [1, 2, 3]) = .error .UnsupportedProofVariant :=
  ⟨fun _ hc => InnerReceipt.noConfusion hc,
    seal_encoder_rejects_non_groth16 (InnerReceipt.succinct [1, 2, 3])
      (fun _ hc => InnerReceipt.noConfusion hc)⟩

/-- C6: the Seal Encoder is deterministic and idempotent — on every
succinct proof object it produces the fixed selector prefix followed
by the serialized proof bytes, and encoding twice yields byte-identical
Encoded Seals. -/
theorem seal_encoder_deterministic (s : List Nat) :
    encodeSeal (InnerReceipt.groth16 s) = .ok (groth16Selector ++ s) ∧
      encodeSeal (InnerReceipt.groth16 s) = encodeSeal (InnerReceipt.groth16 s) :=
  ⟨rfl, rfl⟩

/-- C4: the Statement Decoder returns `MalformedJournal` on every
journal byte sequence that is not a valid, canonically-padded ABI
encoding of a single fixed-width unsigned integer — in particular on
every sequence whose length is not an exact multiple of the 32-byte
ABI word size. -/
theorem statement_decoder_rejects_malformed (j : List Nat)
    (hb : ∀ b ∈ j, b < 256)
    (h : j.length % 32 ≠ 0 ∨ ¬∃ v, v < 2 ^ 256 ∧ j = abiEncodeWord v) :
    abiDecodeU256 j = .error .MalformedJournal := by
  rcases h with h | h
  · have hl : j.length ≠ 32 := by
      intro hl
      rw [hl] at h
      exact h rfl
    simp [abiDecodeU256, hl]
  · by_cases hl : j.length = 32
    · exfalso
      apply h
      refine ⟨beToNat j, ?_, (beBytes_beToNat hb hl).symm⟩
      have hrev : ∀ b ∈ j.reverse, b < 256 := fun b hb' => hb b (List.mem_reverse.mp hb')
      have := leToNat_lt hrev
      rw [List.length_reverse, hl, pow256_32] at this
      exact this
    · simp [abiDecodeU256, hl]

theorem statement_decoder_rejects_malformed_witness :
    (∀ b ∈ [(0 : Nat)], b < 256) ∧ ([(0 : Nat)].length % 32 ≠ 0) ∧
      abiDecodeU256 [0] = .error .MalformedJournal :=
  ⟨by decide, by decide,
    statement_decoder_rejects_malformed [0] (by decide) (Or.inl (by decide))⟩

/-- C9 counterexample: `TxSender::send` returns
`Result<Option<TransactionReceipt>>` — with a client whose pending
transaction resolves to no receipt, the send succeeds while carrying
no transaction receipt, so a successful return does not always carry
a receipt. -/
theorem tx_sender_ok_none_counterexample :
    TxSender.send ⟨1, 2⟩ (fun _ => .ok none) [0] = .ok (none : Option TxReceipt) ∧
      (none : Option TxReceipt).isSome = false :=
  ⟨rfl, rfl⟩

/-- C9 (amended): for every Call Payload submitted, `TxSender::send`
returns exactly the client's outcome for the request it builds from
its chain id, contract address and the calldata — either a failure or
an optional transaction receipt, which may be absent. -/
theorem tx_sender_forwards_client_result (s : TxSender)
    (client : TxRequest → Except PubError (Option TxReceipt))
    (calldata : List Nat) :
    (∀ o, TxSender.send s client calldata = .ok o ↔
        client ⟨s.chainId, s.contract, calldata⟩ = .ok o) ∧
      (∀ er, TxSender.send s client calldata = .error er ↔
        client ⟨s.chainId, s.contract, calldata⟩ = .error er) :=
  ⟨fun _ => Iff.rfl, fun _ => Iff.rfl⟩

/-- C1 counterexample: on input tuple `(n, e, x) = (3, 2, 2)` the
value Assumption Chaining forwards is the ABI encoding of the journal
tuple's third component (the original `x = 2`), which differs from the
ABI encoding of the derived value `v = x^e mod n = 2^2 mod 3 = 1`
computed by the local private program. -/
theorem forwarded_value_not_derived_counterexample :
    forwardedInput (localProveSpec 3 2 2) ≠ .ok (abiEncodeWord (powMod 2 2 3)) := by
  decide

/-- C1 (amended): for every completed Local Proof Artifact, Assumption
Chaining forwards to the Remote Proving Stage exactly one value as
public input — the third component of the decoded journal tuple (the
original input `x`, not the derived value `x^e mod n`) — ABI-encoded
as raw input bytes, and no other component of the decoded result
tuple is copied into the second stage's input. -/
theorem assumption_chaining_forwards_third_component (n e x : Nat)
    (hn : n < 2 ^ 64) (he : e < 2 ^ 64) (hx : x < 2 ^ 64) :
    forwardedInput (localProveSpec n e x) = .ok (abiEncodeWord x) ∧
      ∀ n' e', n' < 2 ^ 64 → e' < 2 ^ 64 →
        forwardedInput (localProveSpec n' e' x) = forwardedInput (localProveSpec n e x) := by
  have hfwd : ∀ a b : Nat, a < 2 ^ 64 → b < 2 ^ 64 →
      forwardedInput (localProveSpec a b x) = .ok (abiEncodeWord x) := by
    intro a b ha hb
    unfold forwardedInput localProveSpec
    rw [show (Receipt.mk (InnerReceipt.composite (risc0Encode3 a b x)) (risc0Encode3 a b x)).journal
        = risc0Encode3 a b x from rfl]
    rw [risc0_roundtrip_aux (by rw [pow256_8]; exact ha) (by rw [pow256_8]; exact hb)
      (by rw [pow256_8]; exact hx)]
    rfl
  refine ⟨hfwd n e hn he, ?_⟩
  intro n' e' hn' he'
  rw [hfwd n' e' hn' he', hfwd n e hn he]

theorem assumption_chaining_forwards_third_component_witness :
    (3 < 2 ^ 64 ∧ 2 < 2 ^ 64) ∧
      forwardedInput (localProveSpec 3 2 2) = .ok (abiEncodeWord 2) ∧
      forwardedInput (localProveSpec 7 9 2) = forwardedInput (localProveSpec 3 2 2) :=
  ⟨⟨by decide, by decide⟩,
    (assumption_chaining_forwards_third_component 3 2 2 (by decide) (by decide) (by decide)).1,
    (assumption_chaining_forwards_third_component 3 2 2 (by decide) (by decide) (by decide)).2
      7 9 (by decide) (by decide)⟩

theorem remoteProveSpec_some (expected : List Nat) (a : Receipt) (i : List Nat) :
    remoteProveSpec expected ⟨some a, i⟩ =
      if attestsJournal a ∧ a.journal = expected then
        .ok ⟨.groth16 i, i⟩
      else .error .AssumptionRejected := rfl

theorem remoteProveSpec_genuine (n e x : Nat) :
    remoteProveSpec (localProveSpec n e x).journal
      ⟨some (localProveSpec n e x), remoteInputOf (n, e, x)⟩
      = .ok ⟨.groth16 (remoteInputOf (n, e, x)), remoteInputOf (n, e, x)⟩ := by
  have hcond : attestsJournal (localProveSpec n e x) ∧
      (localProveSpec n e x).journal = (localProveSpec n e x).journal := by
    constructor
    · show risc0Encode3 n e x = risc0Encode3 n e x
      rfl
    · rfl
  rw [remoteProveSpec_some, if_pos hcond]

/-- C3: the Remote Proving Stage fails with `AssumptionRejected` —
rather than silently succeeding — whenever the chained assumption is
missing, whenever its proof does not attest its journal (an invalid
artifact), and whenever the Local Proof Artifact has been replaced by
one produced for a different input tuple. -/
theorem remote_stage_rejects_bad_assumption (n e x n' e' x' : Nat)
    (hn : n < 2 ^ 64) (he : e < 2 ^ 64) (hx : x < 2 ^ 64)
    (hn' : n' < 2 ^ 64) (he' : e' < 2 ^ 64) (hx' : x' < 2 ^ 64)
    (hne : (n, e, x) ≠ (n', e', x'))
    (a : Receipt) (hbad : ¬ attestsJournal a) :
    remoteProveSpec (localProveSpec n e x).journal
        ⟨none, remoteInputOf (n, e, x)⟩ = .error .AssumptionRejected ∧
      remoteProveSpec (localProveSpec n e x).journal
        ⟨some a, remoteInputOf (n, e, x)⟩ = .error .AssumptionRejected ∧
      remoteProveSpec (localProveSpec n e x).journal
        ⟨some (localProveSpec n' e' x'), remoteInputOf (n, e, x)⟩
        = .error .AssumptionRejected := by
  refine ⟨rfl, ?_, ?_⟩
  · have hneg : ¬(attestsJournal a ∧
        a.journal = (localProveSpec n e x).journal) := fun hc => hbad hc.1
    rw [remoteProveSpec_some, if_neg hneg]
  · have hneg : ¬(attestsJournal (localProveSpec n' e' x') ∧
        (localProveSpec n' e' x').journal = (localProveSpec n e x).journal) := by
      intro hc
      have hj : risc0Encode3 n' e' x' = risc0Encode3 n e x := hc.2
      have heq := risc0Encode3_inj
        (by rw [pow256_8]; exact hn') (by rw [pow256_8]; exact he')
        (by rw [pow256_8]; exact hx')
        (by rw [pow256_8]; exact hn) (by rw [pow256_8]; exact he)
        (by rw [pow256_8]; exact hx) hj
      exact hne heq.symm
    rw [remoteProveSpec_some, if_neg hneg]

theorem remote_stage_rejects_bad_assumption_witness :
    ((3 : Nat), (5 : Nat), (2 : Nat)) ≠ ((3 : Nat), (5 : Nat), (4 : Nat)) ∧
      ¬ attestsJournal ⟨InnerReceipt.fake, []⟩ ∧
      remoteProveSpec (localProveSpec 3 5 2).journal
        ⟨none, remoteInputOf (3, 5, 2)⟩ = .error .AssumptionRejected ∧
      remoteProveSpec (localProveSpec 3 5 2).journal
        ⟨some ⟨InnerReceipt.fake, []⟩, remoteInputOf (3, 5, 2)⟩
        = .error .AssumptionRejected ∧
      remoteProveSpec (localProveSpec 3 5 2).journal
        ⟨some (localProveSpec 3 5 4), remoteInputOf (3, 5, 2)⟩
        = .error .AssumptionRejected := by
  have h := remote_stage_rejects_bad_assumption 3 5 2 3 5 4
    (by decide) (by decide) (by decide) (by decide) (by decide) (by decide)
    (by decide) ⟨InnerReceipt.fake, []⟩ (by decide)
  exact ⟨by decide, by decide, h.1, h.2.1, h.2.2⟩

/-- C8 counterexample: a pipeline run whose local proving stage fails
performs no transaction send at all, so not every pipeline run
performs exactly one send. -/
theorem pipeline_send_count_counterexample :
    (runPipeline (fun _ => .error .ProvingError)
        (remoteProveSpec (localProveSpec 3 5 2).journal)
        (fun _ => .ok none) 3 5 2).2 = [] ∧
      (runPipeline (fun _ => .error .ProvingError)
        (remoteProveSpec (localProveSpec 3 5 2).journal)
        (fun _ => .ok none) 3 5 2).2.length ≠ 1 :=
  ⟨rfl, by simp [runPipeline]⟩

/-- C8 (amended): every pipeline run hands the sender at most one Call
Payload — exactly one when the run succeeds — and whenever the sender
fails on the payload it was handed, that failure is propagated as the
run's outcome, with no second send, retry, timeout or cancellation. -/
theorem pipeline_at_most_one_send
    (localProve : Nat × Nat × Nat → Except PubError Receipt)
    (remoteProve : RemoteEnv → Except PubError Receipt)
    (sender : List Nat → Except PubError (Option TxReceipt))
    (n e x : Nat) :
    (runPipeline localProve remoteProve sender n e x).2.length ≤ 1 ∧
      ((runPipeline localProve remoteProve sender n e x).1 = .ok () →
        (runPipeline localProve remoteProve sender n e x).2.length = 1) ∧
      (∀ cd ∈ (runPipeline localProve remoteProve sender n e x).2,
        ∀ er, sender cd = .error er →
          (runPipeline localProve remoteProve sender n e x).1 = .error er) := by
  rcases hl : localProve (n, e, x) with erl | lr
  · have hrun : runPipeline localProve remoteProve sender n e x = (.error erl, []) := by
      simp [runPipeline, hl]
    simp [hrun]
  rcases hd : risc0Decode3 lr.journal with erd | res
  · have hrun : runPipeline localProve remoteProve sender n e x = (.error erd, []) := by
      simp [runPipeline, hl, hd]
    simp [hrun]
  rcases hr : remoteProve ⟨some lr, remoteInputOf res⟩ with err | rr
  · have hrun : runPipeline localProve remoteProve sender n e x = (.error err, []) := by
      simp [runPipeline, hl, hd, hr]
    simp [hrun]
  rcases hg : rr.inner.groth16Seal with erg | s
  · have hrun : runPipeline localProve remoteProve sender n e x = (.error erg, []) := by
      simp [runPipeline, hl, hd, hr, hg]
    simp [hrun]
  rcases ha : abiDecodeU256 rr.journal with era | stmt
  · have hrun : runPipeline localProve remoteProve sender n e x = (.error era, []) := by
      simp [runPipeline, hl, hd, hr, hg, ha]
    simp [hrun]
  rcases hs : sender (buildSetCall stmt (groth16Encode s)) with ers | o
  · have hrun : runPipeline localProve remoteProve sender n e x
        = (.error ers, [buildSetCall stmt (groth16Encode s)]) := by
      simp [runPipeline, hl, hd, hr, hg, ha, hs]
    refine ⟨by simp [hrun], by simp [hrun], ?_⟩
    intro cd hcd er' h'
    rw [hrun] at hcd
    rw [List.mem_singleton] at hcd
    subst hcd
    rw [hs] at h'
    rw [hrun]
    exact congrArg Except.error (Except.error.inj h')
  · have hrun : runPipeline localProve remoteProve sender n e x
        = (.ok (), [buildSetCall stmt (groth16Encode s)]) := by
      simp [runPipeline, hl, hd, hr, hg, ha, hs]
    refine ⟨by simp [hrun], by simp [hrun], ?_⟩
    intro cd hcd er' h'
    rw [hrun] at hcd
    rw [List.mem_singleton] at hcd
    subst hcd
    rw [hs] at h'
    exact Except.noConfusion h'

theorem pipeline_at_most_one_send_witness :
    (runPipeline (fun t => .ok (localProveSpec t.1 t.2.1 t.2.2))
        (remoteProveSpec (localProveSpec 3 5 2).journal)
        (fun _ => .ok (some ⟨0⟩)) 3 5 2).2.length ≤ 1 :=
  (pipeline_at_most_one_send (fun t => .ok (localProveSpec t.1 t.2.1 t.2.2))
    (remoteProveSpec (localProveSpec 3 5 2).journal)
    (fun _ => .ok (some ⟨0⟩)) 3 5 2).1

theorem drop_append_of_length {α : Type} {l₁ l₂ : List α} {m : Nat} (n : Nat)
    (h : l₁.length = m) : (l₁ ++ l₂).drop (m + n) = l₂.drop n := by
  subst h
  rw [← List.drop_drop, List.drop_left]

/-- C7: the Call Builder is pure and deterministic, and ABI-decoding
its Call Payload with an independent strict decoder for the
`set(uint256, bytes)` signature yields back exactly the statement and
seal that were supplied. -/
theorem call_builder_roundtrip (stmt : Nat) (s : List Nat)
    (hstmt : stmt < 2 ^ 256) (hs : s.length < 2 ^ 256) :
    decodeSetCall (buildSetCall stmt s) = some (stmt, s) ∧
      buildSetCall stmt s = buildSetCall stmt s := by
  refine ⟨?_, rfl⟩
  have hstmt' : stmt < 256 ^ 32 := by rw [pow256_32]; exact hstmt
  have hs' : s.length < 256 ^ 32 := by rw [pow256_32]; exact hs
  have hP : setSelector.length = 4 := rfl
  have hA : (abiEncodeWord stmt).length = 32 := beBytes_length 32 stmt
  have hB : (abiEncodeWord 64).length = 32 := beBytes_length 32 64
  have hC : (abiEncodeWord s.length).length = 32 := beBytes_length 32 s.length
  have hbeA : beToNat (abiEncodeWord stmt) = stmt := beToNat_beBytes_of_lt hstmt'
  have hbe64 : beToNat (abiEncodeWord 64) = 64 :=
    beToNat_beBytes_of_lt (by norm_num)
  have hbeC : beToNat (abiEncodeWord s.length) = s.length := beToNat_beBytes_of_lt hs'
  have hshape : buildSetCall stmt s
      = setSelector ++ (abiEncodeWord stmt ++ (abiEncodeWord 64 ++
          (abiEncodeWord s.length ++ (s ++ List.replicate (padLen s.length) 0)))) := by
    simp [buildSetCall, List.append_assoc]
  have e0 : (buildSetCall stmt s).take 4 = setSelector := by
    rw [hshape]; exact List.take_left' hP
  have e1 : (buildSetCall stmt s).drop 4
      = abiEncodeWord stmt ++ (abiEncodeWord 64 ++
          (abiEncodeWord s.length ++ (s ++ List.replicate (padLen s.length) 0))) := by
    rw [hshape]; exact List.drop_left' hP
  have e2 : (abiEncodeWord stmt ++ (abiEncodeWord 64 ++
      (abiEncodeWord s.length ++ (s ++ List.replicate (padLen s.length) 0)))).take 32
      = abiEncodeWord stmt := List.take_left' hA
  have e3 : (abiEncodeWord stmt ++ (abiEncodeWord 64 ++
      (abiEncodeWord s.length ++ (s ++ List.replicate (padLen s.length) 0)))).drop 32
      = abiEncodeWord 64 ++
        (abiEncodeWord s.length ++ (s ++ List.replicate (padLen s.length) 0)) :=
    List.drop_left' hA
  have e5 : (abiEncodeWord stmt ++ (abiEncodeWord 64 ++
      (abiEncodeWord s.length ++ (s ++ List.replicate (padLen s.length) 0)))).drop 64
      = abiEncodeWord s.length ++ (s ++ List.replicate (padLen s.length) 0) := by
    show (abiEncodeWord stmt ++ (abiEncodeWord 64 ++
      (abiEncodeWord s.length ++ (s ++ List.replicate (padLen s.length) 0)))).drop (32 + 32)
      = abiEncodeWord s.length ++ (s ++ List.replicate (padLen s.length) 0)
    rw [drop_append_of_length 32 hA]
    exact List.drop_left' hB
  have e6 : (abiEncodeWord stmt ++ (abiEncodeWord 64 ++
      (abiEncodeWord s.length ++ (s ++ List.replicate (padLen s.length) 0)))).drop 96
      = s ++ List.replicate (padLen s.length) 0 := by
    show (abiEncodeWord stmt ++ (abiEncodeWord 64 ++
      (abiEncodeWord s.length ++ (s ++ List.replicate (padLen s.length) 0)))).drop (32 + 64)
      = s ++ List.replicate (padLen s.length) 0
    rw [drop_append_of_length 64 hA]
    show (abiEncodeWord 64 ++
      (abiEncodeWord s.length ++ (s ++ List.replicate (padLen s.length) 0))).drop (32 + 32)
      = s ++ List.replicate (padLen s.length) 0
    rw [drop_append_of_length 32 hB]
    exact List.drop_left' hC
  have e7 : (s ++ List.replicate (padLen s.length) 0).drop s.length
      = List.replicate (padLen s.length) 0 := List.drop_left s _
  have e8 : (s ++ List.replicate (padLen s.length) 0).take s.length = s :=
    List.take_left s _
  have hlen : (abiEncodeWord stmt ++ (abiEncodeWord 64 ++
      (abiEncodeWord s.length ++ (s ++ List.replicate (padLen s.length) 0)))).length
      = 96 + s.length + padLen s.length := by
    rw [List.length_append, List.length_append, List.length_append, List.length_append,
      hA, hB, hC, List.length_replicate]
    omega
  have hc2 : 96 ≤ (abiEncodeWord stmt ++ (abiEncodeWord 64 ++
      (abiEncodeWord s.length ++ (s ++ List.replicate (padLen s.length) 0)))).length := by
    rw [hlen]
    omega
  have hc3 : ∀ b ∈ List.replicate (padLen s.length) 0, b = (0 : Nat) :=
    fun _ hb => List.eq_of_mem_replicate hb
  simp only [decodeSetCall]
  rw [e0, e1, e2, hbeA, e3, List.take_left' hB, hbe64, e5, List.take_left' hC, hbeC,
    e6, e7, e8]
  simp [hc2, hlen, hc3]
  omega

theorem call_builder_roundtrip_witness :
    ((5 : Nat) < 2 ^ 256 ∧ ([(1 : Nat), 2, 3]).length < 2 ^ 256) ∧
      decodeSetCall (buildSetCall 5 [1, 2, 3]) = some (5, [1, 2, 3]) :=
  ⟨⟨by norm_num, by norm_num⟩,
    (call_builder_roundtrip 5 [1, 2, 3] (by norm_num) (by norm_num)).1⟩
